import Mathlib

/-!
Shallow embedding of `packages/language-server/src/plugins/typescript/service.ts`.

The file models the per-project language-service container (snapshot cache,
module-resolution cache, engine-instance generation) and the process-wide
service registry, and proves the specification claims about them.

External collaborators that are not part of the source excerpt
(`SnapshotManager`, the svelte module loader, `DocumentSnapshot`
constructors, path utilities) are modelled either as abstract parameters
(`ContainerCtx`, `Disk`) or, where a claim depends on their behavior, as
definitions modelled from the specification; those carry a doc comment
starting with "Modelled from the spec:".

The engine instance (`ts.LanguageService`) is opaque; its identity is
modelled by a generation counter `serviceGen`: `languageService.dispose()`
followed by `ts.createLanguageService(host)` increments the generation, so
two states have the same engine instance iff their generations are equal.
-/

set_option autoImplicit false

namespace Service

/-- Script-kind classification of a file, as used by the engine
(subset of the `ts.ScriptKind` enumeration). -/
inductive ScriptKind where
  | js
  | jsx
  | ts
  | tsx
  | deferred
deriving DecidableEq

/-- One file's analyzable content: the relevant fields of `DocumentSnapshot`
(version, script kind, text content). -/
structure DocumentSnapshot where
  version : Int
  scriptKind : ScriptKind
  content : String
deriving DecidableEq

/-- The editor document model: file path (possibly absent), version, text. -/
structure Document where
  filePath : Option String
  version : Int
  text : String
deriving DecidableEq

/-- `document.getFilePath() || ''` from the source. -/
def Document.getFilePathOrEmpty (d : Document) : String :=
  d.filePath.getD ""

/-- Abstract on-disk file contents, read by the `DocumentSnapshot.fromFilePath`
constructor. -/
abbrev Disk := String → String

/-- Opaque incremental edit (`TextDocumentContentChangeEvent`). -/
abbrev Change := String

/-- Abstract external constructors used by the container:
`DocumentSnapshot.fromDocument`, `DocumentSnapshot.fromFilePath` (which reads
the disk), and the snapshot-edit application used by
`SnapshotManager.updateTsOrJsFile`. They are external to the source excerpt,
so the theorems quantify over them. -/
structure ContainerCtx where
  fromDocument : Document → DocumentSnapshot
  fromFilePath : Disk → String → DocumentSnapshot
  applyChanges : DocumentSnapshot → Option (List Change) → DocumentSnapshot

/-! ### The snapshot cache (`SnapshotManager`'s path-to-snapshot map)

Modelled as an association list with JS-`Map` get/set/delete/has semantics. -/

/-- The snapshot cache: absolute file path to current snapshot. -/
abbrev SnapMap := List (String × DocumentSnapshot)

namespace SnapMap

/-- `snapshotManager.get(path)`. -/
def get (m : SnapMap) (p : String) : Option DocumentSnapshot :=
  List.lookup p m

/-- `snapshotManager.set(path, snapshot)`: unconditional overwrite. -/
def set (m : SnapMap) (p : String) (s : DocumentSnapshot) : SnapMap :=
  (p, s) :: List.filter (fun e => e.1 != p) m

/-- `snapshotManager.delete(path)`. -/
def del (m : SnapMap) (p : String) : SnapMap :=
  List.filter (fun e => e.1 != p) m

/-- `snapshotManager.has(path)`. -/
def hasKey (m : SnapMap) (p : String) : Bool :=
  (get m p).isSome

theorem lookup_filter_ne (m : List (String × DocumentSnapshot)) (p : String) :
    List.lookup p (List.filter (fun e => e.1 != p) m) = none := by
  induction m with
  | nil => rfl
  | cons e m ih =>
      by_cases h : e.1 = p
      · simp [List.filter_cons, h, ih]
      · simp only [List.filter_cons]
        have hb : (e.1 != p) = true := by simp [h]
        rw [hb]
        simp only [if_true]
        rw [List.lookup_cons]
        have hb2 : (p == e.1) = false := by simp [Ne.symm h]
        simp [hb2, ih]

@[simp] theorem get_set_self (m : SnapMap) (p : String) (s : DocumentSnapshot) :
    get (set m p s) p = some s := by
  simp [get, set, List.lookup_cons]

@[simp] theorem get_del_self (m : SnapMap) (p : String) :
    get (del m p) p = none := by
  simp [get, del, lookup_filter_ne]

end SnapMap

/-! ### The module-resolution cache -/

/-- Outcome of one module-resolution attempt: resolved to a file, or recorded
as failed because a file that could satisfy it was missing. -/
inductive Resolution where
  | resolved (target : String)
  | failedMissing (missingPath : String)
deriving DecidableEq

/-- One entry of the module-resolution cache, keyed by the importing file and
the module specifier. -/
structure CacheEntry where
  fromFile : String
  specifier : String
  result : Resolution
deriving DecidableEq

/-- The module-resolution cache of the svelte module loader. -/
abbrev ModuleCache := List CacheEntry

/-- Modelled from the spec: `svelteModuleLoader.deleteUnresolvedResolutionsFromCache`
(module-loader code, not part of the source excerpt). Per spec section 4.4 it purges
the resolution-cache entries previously recorded as failed because the given
file did not yet exist. -/
def deleteUnresolvedResolutionsFromCache (c : ModuleCache) (path : String) : ModuleCache :=
  List.filter (fun e => match e.result with
    | Resolution.failedMissing p => p != path
    | Resolution.resolved _ => true) c

/-- Modelled from the spec: `svelteModuleLoader.deleteFromModuleCache`
(module-loader code, not part of the source excerpt). Per spec section 4.5 it removes
the resolution-cache entries associated with the given path. -/
def deleteFromModuleCache (c : ModuleCache) (path : String) : ModuleCache :=
  List.filter (fun e =>
    e.fromFile != path && (match e.result with
      | Resolution.resolved t => t != path
      | Resolution.failedMissing p => p != path)) c

theorem not_failedMissing_of_purged (c : ModuleCache) (path : String) :
    ∀ e ∈ deleteUnresolvedResolutionsFromCache c path,
      e.result ≠ Resolution.failedMissing path := by
  intro e he hres
  rw [deleteUnresolvedResolutionsFromCache, List.mem_filter] at he
  rw [hres] at he
  simp at he

/-! ### Container state and operations -/

/-- The mutable state captured by the closures of `createLanguageService`:
the snapshot cache, the module-resolution cache, and the engine-instance
generation (identity of `languageService`). -/
structure ContainerState where
  snapshots : SnapMap
  moduleCache : ModuleCache
  serviceGen : Nat

/-- `getService()`: returns the current live engine instance, modelled by its
generation. -/
def getService (st : ContainerState) : Nat :=
  st.serviceGen

/-- `hasFile(filePath)`: pure cache-membership test. -/
def hasFile (st : ContainerState) (filePath : String) : Bool :=
  SnapMap.hasKey st.snapshots filePath

/-- `deleteSnapshot(filePath)`: removes the path's module-cache entries and
its snapshot. -/
def deleteSnapshot (st : ContainerState) (filePath : String) : ContainerState :=
  { st with
    moduleCache := deleteFromModuleCache st.moduleCache filePath
    snapshots := SnapMap.del st.snapshots filePath }

/-- `updateSnapshotFromDocument(document)`: version-equality early return,
purge of unresolved resolutions when the path is new, snapshot overwrite, and
engine restart on script-kind change. -/
def updateSnapshotFromDocument (ctx : ContainerCtx) (st : ContainerState)
    (document : Document) : DocumentSnapshot × ContainerState :=
  match SnapMap.get st.snapshots document.getFilePathOrEmpty with
  | some prevSnapshot =>
      if prevSnapshot.version = document.version then
        (prevSnapshot, st)
      else
        let newSnapshot := ctx.fromDocument document
        let st1 := { st with
          snapshots := SnapMap.set st.snapshots document.getFilePathOrEmpty newSnapshot }
        if prevSnapshot.scriptKind ≠ newSnapshot.scriptKind then
          (newSnapshot, { st1 with serviceGen := st1.serviceGen + 1 })
        else
          (newSnapshot, st1)
  | none =>
      let st0 := { st with
        moduleCache :=
          deleteUnresolvedResolutionsFromCache st.moduleCache document.getFilePathOrEmpty }
      let newSnapshot := ctx.fromDocument document
      (newSnapshot, { st0 with
        snapshots := SnapMap.set st0.snapshots document.getFilePathOrEmpty newSnapshot })

/-- `updateSnapshotFromFilePath(filePath)`: returns the cached snapshot when
present; otherwise purges unresolved resolutions, reads the file from disk
and stores the new snapshot. -/
def updateSnapshotFromFilePath (ctx : ContainerCtx) (disk : Disk) (st : ContainerState)
    (filePath : String) : DocumentSnapshot × ContainerState :=
  match SnapMap.get st.snapshots filePath with
  | some prevSnapshot => (prevSnapshot, st)
  | none =>
      let st0 := { st with
        moduleCache := deleteUnresolvedResolutionsFromCache st.moduleCache filePath }
      let newSnapshot := ctx.fromFilePath disk filePath
      (newSnapshot, { st0 with snapshots := SnapMap.set st0.snapshots filePath newSnapshot })

/-- `updateSnapshot(documentOrFilePath)`: dispatch on the argument type. -/
def updateSnapshot (ctx : ContainerCtx) (disk : Disk) (st : ContainerState)
    (documentOrFilePath : Document ⊕ String) : DocumentSnapshot × ContainerState :=
  match documentOrFilePath with
  | Sum.inr filePath => updateSnapshotFromFilePath ctx disk st filePath
  | Sum.inl document => updateSnapshotFromDocument ctx st document

/-- Modelled from the spec: `ensureRealSvelteFilePath` (path utility, not part
of the source excerpt). Per spec section 4.4 a file name ending in the
extension-syntax indicator with the appended synthetic suffix is rewritten to
the real on-disk path by dropping the synthetic ".ts" suffix. -/
def ensureRealSvelteFilePath (fileName : String) : String :=
  if List.drop (fileName.data.length - 10) fileName.data = ".svelte.ts".data then
    String.mk (List.take (fileName.data.length - 3) fileName.data)
  else fileName

/-- `getSnapshot(fileName)`: engine-facing snapshot accessor; rewrites the
synthetic svelte path, returns the cached snapshot or creates one from disk
on demand (purging unresolved resolutions first) and stores it. -/
def getSnapshot (ctx : ContainerCtx) (disk : Disk) (st : ContainerState)
    (fileName : String) : DocumentSnapshot × ContainerState :=
  match SnapMap.get st.snapshots (ensureRealSvelteFilePath fileName) with
  | some doc => (doc, st)
  | none =>
      let st0 := { st with
        moduleCache :=
          deleteUnresolvedResolutionsFromCache st.moduleCache (ensureRealSvelteFilePath fileName) }
      let doc := ctx.fromFilePath disk (ensureRealSvelteFilePath fileName)
      (doc, { st0 with
        snapshots := SnapMap.set st0.snapshots (ensureRealSvelteFilePath fileName) doc })

/-- Modelled from the spec: `SnapshotManager.updateTsOrJsFile` (not part of the
source excerpt). Per spec section 4.5 it applies edits to the cached content of a
non-extension-syntax file, creating the snapshot (from disk) if absent. -/
def snapshotManagerUpdateTsOrJsFile (ctx : ContainerCtx) (disk : Disk) (m : SnapMap)
    (fileName : String) (changes : Option (List Change)) : SnapMap :=
  let base :=
    match SnapMap.get m fileName with
    | some s => s
    | none => ctx.fromFilePath disk fileName
  SnapMap.set m fileName (ctx.applyChanges base changes)

/-- `updateTsOrJsFile(fileName, changes)`: purges unresolved resolutions when
the path has no snapshot yet, then delegates to the snapshot manager. -/
def updateTsOrJsFile (ctx : ContainerCtx) (disk : Disk) (st : ContainerState)
    (fileName : String) (changes : Option (List Change)) : ContainerState :=
  let st0 :=
    if SnapMap.hasKey st.snapshots fileName then st
    else { st with
      moduleCache := deleteUnresolvedResolutionsFromCache st.moduleCache fileName }
  { st0 with snapshots := snapshotManagerUpdateTsOrJsFile ctx disk st0.snapshots fileName changes }


/-! ### Concrete sample objects (used by witnesses and counterexamples) -/

/-- A concrete snapshot-constructor context. -/
def sampleCtx : ContainerCtx where
  fromDocument := fun d => { version := d.version, scriptKind := ScriptKind.ts, content := d.text }
  fromFilePath := fun disk p => { version := 0, scriptKind := ScriptKind.ts, content := disk p }
  applyChanges := fun s _ => s

/-- A context whose document snapshots are classified `tsx`. -/
def kindCtx : ContainerCtx where
  fromDocument := fun d => { version := d.version, scriptKind := ScriptKind.tsx, content := d.text }
  fromFilePath := fun disk p => { version := 0, scriptKind := ScriptKind.ts, content := disk p }
  applyChanges := fun s _ => s

/-- A disk on which every file currently reads "new content". -/
def sampleDisk : Disk := fun _ => "new content"

/-- A cached snapshot with stale content. -/
def oldSnap : DocumentSnapshot :=
  { version := 0, scriptKind := ScriptKind.ts, content := "old content" }

/-- A container state holding a cached snapshot for "a.ts". -/
def staleState : ContainerState :=
  { snapshots := [("a.ts", oldSnap)], moduleCache := [], serviceGen := 0 }

/-- The empty container state. -/
def emptyState : ContainerState :=
  { snapshots := [], moduleCache := [], serviceGen := 0 }

/-- A state caching a snapshot for the real svelte path "a.svelte". -/
def svelteState : ContainerState :=
  { snapshots := [("a.svelte", oldSnap)], moduleCache := [], serviceGen := 0 }

/-- A state with no snapshot for "b.ts" and a resolution failure recorded
against "b.ts". -/
def failedResState : ContainerState :=
  { snapshots := []
    moduleCache := [{ fromFile := "x.ts", specifier := "./b"
                      result := Resolution.failedMissing "b.ts" }]
    serviceGen := 0 }

/-- A document for "a.ts" at the cached version. -/
def sampleDoc : Document := { filePath := some "a.ts", version := 0, text := "old content" }

/-- A document for "a.ts" at a newer version. -/
def sampleDoc2 : Document := { filePath := some "a.ts", version := 1, text := "x" }

/-- A document for "b.ts". -/
def sampleDocB : Document := { filePath := some "b.ts", version := 3, text := "b" }

/-! ### C2: unchanged version is idempotent -/

/-- C2: for a path with a cached snapshot, `updateSnapshot` with a document of
equal version returns the cached snapshot itself and leaves the whole
container state (snapshot cache, module cache, engine generation) unchanged. -/
theorem updateSnapshot_unchanged_version (ctx : ContainerCtx) (st : ContainerState)
    (document : Document) (prev : DocumentSnapshot)
    (hget : SnapMap.get st.snapshots document.getFilePathOrEmpty = some prev)
    (hver : prev.version = document.version) :
    updateSnapshotFromDocument ctx st document = (prev, st) := by
  unfold updateSnapshotFromDocument
  rw [hget]
  simp [hver]

/-- Witness for C2 at a concrete state and document. -/
theorem updateSnapshot_unchanged_version_witness :
    updateSnapshotFromDocument sampleCtx staleState sampleDoc = (oldSnap, staleState) :=
  updateSnapshot_unchanged_version sampleCtx staleState sampleDoc oldSnap rfl rfl

/-! ### C3: script-kind change restarts the engine -/

/-- C3: for a path with a cached snapshot and a document of a different
version, if the resulting snapshot's script kind differs from the cached one
the engine instance is disposed and recreated (`getService` returns a new
identity); if the script kind is unchanged, `getService` returns the same
instance as before. -/
theorem updateSnapshot_scriptKind_change (ctx : ContainerCtx) (st : ContainerState)
    (document : Document) (prev : DocumentSnapshot)
    (hget : SnapMap.get st.snapshots document.getFilePathOrEmpty = some prev)
    (hver : prev.version ≠ document.version) :
    ((ctx.fromDocument document).scriptKind ≠ prev.scriptKind →
        getService (updateSnapshotFromDocument ctx st document).2 = getService st + 1 ∧
        getService (updateSnapshotFromDocument ctx st document).2 ≠ getService st) ∧
    ((ctx.fromDocument document).scriptKind = prev.scriptKind →
        getService (updateSnapshotFromDocument ctx st document).2 = getService st) := by
  unfold updateSnapshotFromDocument
  rw [hget]
  constructor
  · intro hk
    have hk' : prev.scriptKind ≠ (ctx.fromDocument document).scriptKind := Ne.symm hk
    simp [hver, hk', getService]
  · intro hk
    have hk' : prev.scriptKind = (ctx.fromDocument document).scriptKind := hk.symm
    simp [hver, hk', getService]

/-- Witness for C3 at a concrete state: version changes and script kind flips
from `ts` to `tsx`, so the engine generation advances. -/
theorem updateSnapshot_scriptKind_change_witness :
    getService (updateSnapshotFromDocument kindCtx staleState sampleDoc2).2
        = getService staleState + 1 ∧
    getService (updateSnapshotFromDocument kindCtx staleState sampleDoc2).2
        ≠ getService staleState :=
  (updateSnapshot_scriptKind_change kindCtx staleState sampleDoc2 oldSnap rfl
    (by decide)).1 (by decide)


/-! ### C6: the file-path update variant -/

/-- C6 counterexample: with a snapshot cached for "a.ts" whose content is
"old content" while the disk now holds "new content", the file-path variant of
`updateSnapshot` returns the cached snapshot and does not re-read the disk:
the returned snapshot differs from what a disk read would produce. -/
theorem updateSnapshotFromFilePath_no_reread :
    (updateSnapshotFromFilePath sampleCtx sampleDisk staleState "a.ts").1.content
        = "old content" ∧
    (sampleCtx.fromFilePath sampleDisk "a.ts").content = "new content" ∧
    (updateSnapshotFromFilePath sampleCtx sampleDisk staleState "a.ts").1
        ≠ sampleCtx.fromFilePath sampleDisk "a.ts" ∧
    (updateSnapshotFromFilePath sampleCtx sampleDisk staleState "a.ts").2.snapshots
        = staleState.snapshots := by
  refine ⟨by decide, by decide, ?_, by decide⟩
  intro h
  have hc := congrArg DocumentSnapshot.content h
  revert hc
  decide

/-- C6 amended: `updateSnapshot` with a bare file path re-reads the file from
disk (and reclassifies it) only when the path has no cached snapshot, storing
the freshly read snapshot; when a snapshot is already cached it returns the
cached snapshot unchanged without touching the disk or the caches. -/
theorem updateSnapshotFromFilePath_cached_or_disk (ctx : ContainerCtx) (disk : Disk)
    (st : ContainerState) (filePath : String) :
    (∀ prev, SnapMap.get st.snapshots filePath = some prev →
        updateSnapshotFromFilePath ctx disk st filePath = (prev, st)) ∧
    (SnapMap.get st.snapshots filePath = none →
        updateSnapshotFromFilePath ctx disk st filePath =
          (ctx.fromFilePath disk filePath,
            { st with
              moduleCache := deleteUnresolvedResolutionsFromCache st.moduleCache filePath
              snapshots :=
                SnapMap.set st.snapshots filePath (ctx.fromFilePath disk filePath) })) := by
  constructor
  · intro prev hget
    unfold updateSnapshotFromFilePath
    rw [hget]
  · intro hget
    unfold updateSnapshotFromFilePath
    rw [hget]

/-- Witness for the amended C6 on a concrete empty state: the snapshot is read
from disk and stored. -/
theorem updateSnapshotFromFilePath_cached_or_disk_witness :
    updateSnapshotFromFilePath sampleCtx sampleDisk emptyState "b.ts" =
      (sampleCtx.fromFilePath sampleDisk "b.ts",
        { emptyState with
          moduleCache := deleteUnresolvedResolutionsFromCache emptyState.moduleCache "b.ts"
          snapshots :=
            SnapMap.set emptyState.snapshots "b.ts" (sampleCtx.fromFilePath sampleDisk "b.ts") }) :=
  (updateSnapshotFromFilePath_cached_or_disk sampleCtx sampleDisk emptyState "b.ts").2 rfl

/-! ### C8: deleteSnapshot -/

/-- C8: `deleteSnapshot(p)` is total (defined for every state and path,
including when no snapshot for `p` exists), removes the snapshot for `p` from
the snapshot cache and the module-resolution-cache entries associated with
`p`, and `hasFile(p)` returns false immediately afterwards. -/
theorem deleteSnapshot_removes (st : ContainerState) (p : String) :
    hasFile (deleteSnapshot st p) p = false ∧
    (deleteSnapshot st p).snapshots = SnapMap.del st.snapshots p ∧
    (deleteSnapshot st p).moduleCache = deleteFromModuleCache st.moduleCache p ∧
    (deleteSnapshot st p).serviceGen = st.serviceGen := by
  refine ⟨?_, rfl, rfl, rfl⟩
  simp [hasFile, deleteSnapshot, SnapMap.hasKey]

/-! ### C10: the engine-facing snapshot accessor is total -/

/-- C10: `getSnapshot` first rewrites a synthetic svelte-suffixed name to the
real on-disk path and then always returns a snapshot: the cached one when
present (state untouched), otherwise one created from disk, stored in the
snapshot cache after purging unresolved resolutions, so `hasFile` on the real
path is true after any engine read. -/
theorem getSnapshot_total (ctx : ContainerCtx) (disk : Disk) (st : ContainerState)
    (fileName : String) :
    SnapMap.get (getSnapshot ctx disk st fileName).2.snapshots
        (ensureRealSvelteFilePath fileName) = some (getSnapshot ctx disk st fileName).1 ∧
    hasFile (getSnapshot ctx disk st fileName).2 (ensureRealSvelteFilePath fileName) = true ∧
    (∀ prev, SnapMap.get st.snapshots (ensureRealSvelteFilePath fileName) = some prev →
        getSnapshot ctx disk st fileName = (prev, st)) ∧
    (SnapMap.get st.snapshots (ensureRealSvelteFilePath fileName) = none →
        (getSnapshot ctx disk st fileName).1
            = ctx.fromFilePath disk (ensureRealSvelteFilePath fileName) ∧
        (getSnapshot ctx disk st fileName).2.moduleCache
            = deleteUnresolvedResolutionsFromCache st.moduleCache
                (ensureRealSvelteFilePath fileName)) := by
  cases hget : SnapMap.get st.snapshots (ensureRealSvelteFilePath fileName) with
  | some prev =>
      have heq : getSnapshot ctx disk st fileName = (prev, st) := by
        unfold getSnapshot
        rw [hget]
      refine ⟨?_, ?_, ?_, ?_⟩
      · rw [heq]
        exact hget
      · rw [heq]
        simp [hasFile, SnapMap.hasKey, hget]
      · intro prev2 hget2
        cases hget2
        exact heq
      · intro hnone
        exact Option.noConfusion hnone
  | none =>
      have heq : getSnapshot ctx disk st fileName =
          (ctx.fromFilePath disk (ensureRealSvelteFilePath fileName),
            { st with
              moduleCache := deleteUnresolvedResolutionsFromCache st.moduleCache
                (ensureRealSvelteFilePath fileName)
              snapshots := SnapMap.set st.snapshots (ensureRealSvelteFilePath fileName)
                (ctx.fromFilePath disk (ensureRealSvelteFilePath fileName)) }) := by
        unfold getSnapshot
        rw [hget]
      refine ⟨?_, ?_, ?_, ?_⟩
      · rw [heq]
        simp
      · rw [heq]
        simp [hasFile, SnapMap.hasKey]
      · intro prev2 hget2
        exact Option.noConfusion hget2
      · intro _
        rw [heq]
        exact ⟨rfl, rfl⟩

/-- Witness for C10 on a concrete state: the synthetic name "a.svelte.ts" is
rewritten to "a.svelte", whose cached snapshot is returned unchanged. -/
theorem getSnapshot_total_witness :
    getSnapshot sampleCtx sampleDisk svelteState "a.svelte.ts" = (oldSnap, svelteState) :=
  (getSnapshot_total sampleCtx sampleDisk svelteState "a.svelte.ts").2.2.1 oldSnap (by decide)

/-! ### C4: resolution-cache purge whenever a path gains its first snapshot -/

/-- A path gained a snapshot and the unresolved resolution-cache entries for
it were purged: the new module cache is exactly the old one with every entry
that had failed because `p` was missing removed, and `p` now has a snapshot. -/
def purgedAndStored (old new : ContainerState) (p : String) : Prop :=
  new.moduleCache = deleteUnresolvedResolutionsFromCache old.moduleCache p ∧
  (SnapMap.get new.snapshots p).isSome = true ∧
  ∀ e ∈ new.moduleCache, e.result ≠ Resolution.failedMissing p

/-- C4: through each of the four entry points that can give a previously
snapshot-less path a snapshot — `updateSnapshot` with a document,
`updateSnapshot` with a bare file path, `updateTsOrJsFile`, and the
engine-facing `getSnapshot` — the module-resolution entries recorded as
unresolved for that path are purged and the new snapshot is stored. -/
theorem snapshot_creation_purges_unresolved (ctx : ContainerCtx) (disk : Disk)
    (st : ContainerState) (document : Document) (p : String)
    (changes : Option (List Change)) (fileName : String) :
    (document.getFilePathOrEmpty = p → SnapMap.get st.snapshots p = none →
        purgedAndStored st (updateSnapshotFromDocument ctx st document).2 p) ∧
    (SnapMap.get st.snapshots p = none →
        purgedAndStored st (updateSnapshotFromFilePath ctx disk st p).2 p) ∧
    (SnapMap.get st.snapshots p = none →
        purgedAndStored st (updateTsOrJsFile ctx disk st p changes) p) ∧
    (ensureRealSvelteFilePath fileName = p → SnapMap.get st.snapshots p = none →
        purgedAndStored st (getSnapshot ctx disk st fileName).2 p) := by
  refine ⟨?_, ?_, ?_, ?_⟩
  · intro hp hget
    subst hp
    unfold updateSnapshotFromDocument
    rw [hget]
    exact ⟨rfl, by simp, not_failedMissing_of_purged st.moduleCache _⟩
  · intro hget
    unfold updateSnapshotFromFilePath
    rw [hget]
    exact ⟨rfl, by simp, not_failedMissing_of_purged st.moduleCache _⟩
  · intro hget
    unfold updateTsOrJsFile
    have hhas : SnapMap.hasKey st.snapshots p = false := by
      simp [SnapMap.hasKey, hget]
    rw [hhas]
    simp only [Bool.false_eq_true, if_false]
    refine ⟨rfl, ?_, not_failedMissing_of_purged st.moduleCache _⟩
    simp [snapshotManagerUpdateTsOrJsFile]
  · intro hp hget
    rw [← hp] at hget
    unfold getSnapshot
    rw [hget]
    rw [hp]
    exact ⟨rfl, by simp, by
      rw [← hp]
      exact not_failedMissing_of_purged st.moduleCache _⟩

/-- Witness for C4: a state recording a resolution failure for the missing
file "b.ts"; updating from the file path purges the failure and stores the
snapshot. -/
theorem snapshot_creation_purges_unresolved_witness :
    purgedAndStored failedResState
      (updateSnapshotFromFilePath sampleCtx sampleDisk failedResState "b.ts").2 "b.ts" :=
  (snapshot_creation_purges_unresolved sampleCtx sampleDisk failedResState sampleDocB
    "b.ts" none "x").2.1 rfl


/-! ### C1: the service registry and single-flight construction

The registry is the module-level `services` map from tsconfig path to the
promise of a container. A promise is modelled by its allocation identifier:
two callers hold the same eventual container iff they hold the same promise
identifier. `getServiceForTsconfig` checks and updates the map synchronously
(before any suspension point), so in the single-threaded execution model each
call is one atomic step; a sequence of calls issued before any construction
resolves is a fold of these steps. -/

/-- The process-wide `services` map: tsconfig path to in-flight-or-ready
container promise (modelled by its allocation identifier). -/
abbrev ServicesMap := List (String × Nat)

/-- `services.has(tsconfigPath)`. -/
def servicesHas (services : ServicesMap) (tsconfigPath : String) : Bool :=
  (List.lookup tsconfigPath services).isSome

/-- The synchronous step of `getServiceForTsconfig`: if `services` has the
key, the caller awaits the existing promise; otherwise
`createLanguageService` is started, its promise is recorded under the key,
and the caller awaits it. Returns the promise the caller receives, the new
registry and the next fresh promise identifier. -/
def getServiceForTsconfig (services : ServicesMap) (fresh : Nat)
    (tsconfigPath : String) : Nat × ServicesMap × Nat :=
  match List.lookup tsconfigPath services with
  | some promiseId => (promiseId, services, fresh)
  | none => (fresh, (tsconfigPath, fresh) :: services, fresh + 1)

/-- `getService(path, workspaceUris, docContext)`: derives the project key
with `findTsConfigPath` (external to the excerpt, hence a parameter) and
delegates to `getServiceForTsconfig`. -/
def getServiceByPath (findTsConfigPath : String → List String → String)
    (services : ServicesMap) (fresh : Nat) (path : String)
    (workspaceUris : List String) : Nat × ServicesMap × Nat :=
  getServiceForTsconfig services fresh (findTsConfigPath path workspaceUris)

/-- Observable outcome of a sequence of registry requests: the promise each
caller receives, the keys for which a construction was started, the final
registry and the next fresh identifier. -/
structure RunOut where
  promises : List Nat
  constructed : List String
  registry : ServicesMap
  fresh : Nat

/-- Run a sequence of `getServiceForTsconfig` requests issued before any
construction resolves, each request one atomic synchronous step. -/
def runGets : ServicesMap → Nat → List String → RunOut
  | services, fresh, [] => ⟨[], [], services, fresh⟩
  | services, fresh, key :: keys =>
      match List.lookup key services with
      | some promiseId =>
          let rest := runGets services fresh keys
          ⟨promiseId :: rest.promises, rest.constructed, rest.registry, rest.fresh⟩
      | none =>
          let rest := runGets ((key, fresh) :: services) (fresh + 1) keys
          ⟨fresh :: rest.promises, key :: rest.constructed, rest.registry, rest.fresh⟩

/-- Each step of `runGets` is exactly one `getServiceForTsconfig` call: the
head caller receives the step's promise and the remaining calls run in the
step's updated registry; a construction is recorded iff the registry did not
have the key. -/
theorem runGets_cons (services : ServicesMap) (fresh : Nat) (key : String)
    (keys : List String) :
    runGets services fresh (key :: keys) =
      { promises := (getServiceForTsconfig services fresh key).1 ::
          (runGets (getServiceForTsconfig services fresh key).2.1
            (getServiceForTsconfig services fresh key).2.2 keys).promises
        constructed :=
          if servicesHas services key then
            (runGets (getServiceForTsconfig services fresh key).2.1
              (getServiceForTsconfig services fresh key).2.2 keys).constructed
          else key :: (runGets (getServiceForTsconfig services fresh key).2.1
              (getServiceForTsconfig services fresh key).2.2 keys).constructed
        registry := (runGets (getServiceForTsconfig services fresh key).2.1
          (getServiceForTsconfig services fresh key).2.2 keys).registry
        fresh := (runGets (getServiceForTsconfig services fresh key).2.1
          (getServiceForTsconfig services fresh key).2.2 keys).fresh } := by
  cases hk : List.lookup key services with
  | some promiseId => simp [runGets, getServiceForTsconfig, servicesHas, hk]
  | none => simp [runGets, getServiceForTsconfig, servicesHas, hk]

/-- A key bound in the registry keeps its promise across a step. -/
theorem step_preserves_binding (services : ServicesMap) (fresh : Nat)
    (key k : String) (p : Nat) (h : List.lookup k services = some p) :
    List.lookup k (getServiceForTsconfig services fresh key).2.1 = some p := by
  unfold getServiceForTsconfig
  cases hk : List.lookup key services with
  | some promiseId => simpa using h
  | none =>
      simp only
      rw [List.lookup_cons]
      by_cases hkey : k = key
      · rw [hkey] at h
        rw [h] at hk
        exact Option.noConfusion hk
      · have hb : (k == key) = false := by simp [hkey]
        rw [hb]
        exact h

/-- Every request for a key already bound to promise `p` receives `p`. -/
theorem run_promises_of_bound (keys : List String) :
    ∀ (services : ServicesMap) (fresh : Nat) (k : String) (p : Nat),
      List.lookup k services = some p →
      ∀ i : Nat, keys[i]? = some k → (runGets services fresh keys).promises[i]? = some p := by
  induction keys with
  | nil =>
      intro services fresh k p hb i hi
      simp at hi
  | cons key keys ih =>
      intro services fresh k p hb i hi
      cases hk : List.lookup key services with
      | some promiseId =>
          cases i with
          | zero =>
              simp at hi
              subst hi
              simp [runGets, hb]
          | succ n =>
              simp at hi
              have := ih services fresh k p hb n hi
              simp [runGets, hk]
              exact this
      | none =>
          cases i with
          | zero =>
              simp at hi
              subst hi
              rw [hb] at hk
              exact Option.noConfusion hk
          | succ n =>
              simp at hi
              have hkey : k ≠ key := by
                intro he
                rw [he] at hb
                rw [hb] at hk
                exact Option.noConfusion hk
              have hb' : List.lookup k ((key, fresh) :: services) = some p := by
                rw [List.lookup_cons]
                have hbe : (k == key) = false := by simp [hkey]
                rw [hbe]
                exact hb
              have := ih ((key, fresh) :: services) (fresh + 1) k p hb' n hi
              simp [runGets, hk]
              exact this


/-- Any two requests of the same key in one run receive the same promise. -/
theorem run_same_key (keys : List String) :
    ∀ (services : ServicesMap) (fresh : Nat) (i j : Nat) (k : String),
      keys[i]? = some k → keys[j]? = some k →
      (runGets services fresh keys).promises[i]?
        = (runGets services fresh keys).promises[j]? := by
  induction keys with
  | nil =>
      intro services fresh i j k hi hj
      simp at hi
  | cons key keys ih =>
      intro services fresh i j k hi hj
      cases hk : List.lookup key services with
      | some promiseId =>
          cases i with
          | zero =>
              cases j with
              | zero => rfl
              | succ m =>
                  simp at hi
                  subst hi
                  simp at hj
                  have hbound := run_promises_of_bound keys services fresh key promiseId hk m hj
                  simp [runGets, hk]
                  exact hbound.symm
          | succ n =>
              cases j with
              | zero =>
                  simp at hj
                  subst hj
                  simp at hi
                  have hbound := run_promises_of_bound keys services fresh key promiseId hk n hi
                  simp [runGets, hk]
                  exact hbound
              | succ m =>
                  simp at hi hj
                  have := ih services fresh n m k hi hj
                  simp [runGets, hk]
                  exact this
      | none =>
          cases i with
          | zero =>
              cases j with
              | zero => rfl
              | succ m =>
                  simp at hi
                  subst hi
                  simp at hj
                  have hb : List.lookup key ((key, fresh) :: services) = some fresh := by
                    rw [List.lookup_cons]
                    simp
                  have hbound := run_promises_of_bound keys ((key, fresh) :: services)
                    (fresh + 1) key fresh hb m hj
                  simp [runGets, hk]
                  exact hbound.symm
          | succ n =>
              cases j with
              | zero =>
                  simp at hj
                  subst hj
                  simp at hi
                  have hb : List.lookup key ((key, fresh) :: services) = some fresh := by
                    rw [List.lookup_cons]
                    simp
                  have hbound := run_promises_of_bound keys ((key, fresh) :: services)
                    (fresh + 1) key fresh hb n hi
                  simp [runGets, hk]
                  exact hbound
              | succ m =>
                  simp at hi hj
                  have := ih ((key, fresh) :: services) (fresh + 1) n m k hi hj
                  simp [runGets, hk]
                  exact this

/-- A key for which a construction is started during a run was unbound in the
registry the run started from. -/
theorem run_constructed_unbound (keys : List String) :
    ∀ (services : ServicesMap) (fresh : Nat) (k : String),
      k ∈ (runGets services fresh keys).constructed →
      List.lookup k services = none := by
  induction keys with
  | nil =>
      intro services fresh k h
      simp [runGets] at h
  | cons key keys ih =>
      intro services fresh k h
      cases hk : List.lookup key services with
      | some promiseId =>
          simp [runGets, hk] at h
          exact ih services fresh k h
      | none =>
          simp [runGets, hk] at h
          cases h with
          | inl he =>
              rw [he]
              exact hk
          | inr hmem =>
              have := ih ((key, fresh) :: services) (fresh + 1) k hmem
              rw [List.lookup_cons] at this
              cases hbe : k == key with
              | true =>
                  rw [hbe] at this
                  exact Option.noConfusion this
              | false =>
                  rw [hbe] at this
                  exact this

/-- At most one construction is ever started per key in a run. -/
theorem run_constructed_nodup (keys : List String) :
    ∀ (services : ServicesMap) (fresh : Nat),
      (runGets services fresh keys).constructed.Nodup := by
  induction keys with
  | nil =>
      intro services fresh
      simp [runGets]
  | cons key keys ih =>
      intro services fresh
      cases hk : List.lookup key services with
      | some promiseId =>
          simp [runGets, hk]
          exact ih services fresh
      | none =>
          simp only [runGets, hk]
          refine List.nodup_cons.mpr ⟨?_, ih ((key, fresh) :: services) (fresh + 1)⟩
          intro hmem
          have := run_constructed_unbound keys ((key, fresh) :: services) (fresh + 1) key hmem
          rw [List.lookup_cons] at this
          simp at this

/-- C1: single-flight construction per tsconfig key. In any sequence of
`getServiceForTsconfig` requests issued (from an initially empty registry)
before any construction resolves, any two requests naming the same tsconfig
path receive the identical container promise, and at most one container
construction is ever started per key. -/
theorem getServiceForTsconfig_single_flight (keys : List String) (i j : Nat) (k : String)
    (hi : keys[i]? = some k) (hj : keys[j]? = some k) :
    (runGets [] 0 keys).promises[i]? = (runGets [] 0 keys).promises[j]? ∧
    (runGets [] 0 keys).constructed.Nodup :=
  ⟨run_same_key keys [] 0 i j k hi hj, run_constructed_nodup keys [] 0⟩

/-- Witness for C1: three requests, the first and third for the same key,
receive the same promise, and each key is constructed at most once. -/
theorem getServiceForTsconfig_single_flight_witness :
    (runGets [] 0 ["/p/tsconfig.json", "/q/tsconfig.json", "/p/tsconfig.json"]).promises[0]?
      = (runGets [] 0 ["/p/tsconfig.json", "/q/tsconfig.json", "/p/tsconfig.json"]).promises[2]? ∧
    (runGets [] 0 ["/p/tsconfig.json", "/q/tsconfig.json", "/p/tsconfig.json"]).constructed.Nodup :=
  getServiceForTsconfig_single_flight ["/p/tsconfig.json", "/q/tsconfig.json", "/p/tsconfig.json"]
    0 2 "/p/tsconfig.json" (by decide) (by decide)


/-! ### C5 and C7: config resolution (`getParsedConfig`, `getDefaultJsConfig`) -/

/-- `ts.ScriptTarget` (subset). -/
inductive ScriptTarget where
  | ES2015
  | ES2020
  | Latest
deriving DecidableEq

/-- `ts.ModuleKind` (subset). -/
inductive ModuleKind where
  | CommonJS
  | AMD
  | ESNext
deriving DecidableEq

/-- `ts.ModuleResolutionKind` (subset). -/
inductive ModuleResolutionKind where
  | Classic
  | NodeJs
deriving DecidableEq

/-- `ts.JsxEmit` (subset). -/
inductive JsxEmit where
  | noJsx
  | Preserve
  | React
deriving DecidableEq

/-- `ts.CompilerOptions`: each field optional, `none` meaning the key is
absent from the options object. -/
structure CompilerOptions where
  allowNonTsExtensions : Option Bool := none
  target : Option ScriptTarget := none
  module : Option ModuleKind := none
  moduleResolution : Option ModuleResolutionKind := none
  allowJs : Option Bool := none
  noEmit : Option Bool := none
  declaration : Option Bool := none
  skipLibCheck : Option Bool := none
  jsx : Option JsxEmit := none
  jsxFactory : Option String := none
  strict : Option Bool := none
  maxNodeModuleJsDepth : Option Nat := none
  allowSyntheticDefaultImports : Option Bool := none
deriving DecidableEq

/-- The `forcedCompilerOptions` literal of `getParsedConfig`. -/
def forcedCompilerOptions : CompilerOptions :=
  { allowNonTsExtensions := some true
    target := some ScriptTarget.Latest
    module := some ModuleKind.ESNext
    moduleResolution := some ModuleResolutionKind.NodeJs
    allowJs := some true
    noEmit := some true
    declaration := some false
    skipLibCheck := some true
    jsx := some JsxEmit.Preserve }

/-- The object spread of `override` over `base` on compiler options: keys
present in the override win, the rest come from the base. -/
def spreadOptions (base override : CompilerOptions) : CompilerOptions :=
  { allowNonTsExtensions := Option.orElse override.allowNonTsExtensions fun _ => base.allowNonTsExtensions
    target := Option.orElse override.target fun _ => base.target
    module := Option.orElse override.module fun _ => base.module
    moduleResolution := Option.orElse override.moduleResolution fun _ => base.moduleResolution
    allowJs := Option.orElse override.allowJs fun _ => base.allowJs
    noEmit := Option.orElse override.noEmit fun _ => base.noEmit
    declaration := Option.orElse override.declaration fun _ => base.declaration
    skipLibCheck := Option.orElse override.skipLibCheck fun _ => base.skipLibCheck
    jsx := Option.orElse override.jsx fun _ => base.jsx
    jsxFactory := Option.orElse override.jsxFactory fun _ => base.jsxFactory
    strict := Option.orElse override.strict fun _ => base.strict
    maxNodeModuleJsDepth := Option.orElse override.maxNodeModuleJsDepth fun _ => base.maxNodeModuleJsDepth
    allowSyntheticDefaultImports :=
      Option.orElse override.allowSyntheticDefaultImports fun _ => base.allowSyntheticDefaultImports }

/-- The jsxFactory detection at the end of `getParsedConfig`: if the merged
options do not already specify a svelte-prefixed factory, default to
"svelte.createElement", overridden to "svelteNative.createElement" when the
workspace has a svelte-native package. The package probe is external; its
outcome is the parameter `svelteNativeDetected` (false also covers the
silently-swallowed probe failure). -/
def detectJsxFactory (workspacePath : String) (svelteNativeDetected : Bool)
    (o : CompilerOptions) : CompilerOptions :=
  if (match o.jsxFactory with
      | some f => f.startsWith "svelte"
      | none => false) then o
  else
    { o with
      jsxFactory :=
        some (if workspacePath != "" && svelteNativeDetected then
          "svelteNative.createElement"
        else "svelte.createElement") }

/-- The compiler options produced by `getParsedConfig`: the parser's output
(arbitrary, since `ts.parseJsonConfigFileContent` is external) spread under
the forced overrides, then jsxFactory detection. -/
def getParsedConfigOptions (parsedOptions : CompilerOptions) (workspacePath : String)
    (svelteNativeDetected : Bool) : CompilerOptions :=
  detectJsxFactory workspacePath svelteNativeDetected
    (spreadOptions parsedOptions forcedCompilerOptions)

/-- C5: whatever compiler options the project config (with any extends chain)
produces through the external parser, the options `getParsedConfig` returns
carry the forced overrides: noEmit, no declaration emission, allowJs,
allowNonTsExtensions, target Latest, module ESNext, moduleResolution NodeJs,
skipLibCheck and jsx Preserve; they are applied after the merge and cannot be
overridden. -/
theorem forced_options_always_applied (parsedOptions : CompilerOptions)
    (workspacePath : String) (svelteNativeDetected : Bool) :
    (getParsedConfigOptions parsedOptions workspacePath svelteNativeDetected).noEmit
        = some true ∧
    (getParsedConfigOptions parsedOptions workspacePath svelteNativeDetected).declaration
        = some false ∧
    (getParsedConfigOptions parsedOptions workspacePath svelteNativeDetected).allowJs
        = some true ∧
    (getParsedConfigOptions parsedOptions workspacePath svelteNativeDetected).allowNonTsExtensions
        = some true ∧
    (getParsedConfigOptions parsedOptions workspacePath svelteNativeDetected).target
        = some ScriptTarget.Latest ∧
    (getParsedConfigOptions parsedOptions workspacePath svelteNativeDetected).module
        = some ModuleKind.ESNext ∧
    (getParsedConfigOptions parsedOptions workspacePath svelteNativeDetected).moduleResolution
        = some ModuleResolutionKind.NodeJs ∧
    (getParsedConfigOptions parsedOptions workspacePath svelteNativeDetected).skipLibCheck
        = some true ∧
    (getParsedConfigOptions parsedOptions workspacePath svelteNativeDetected).jsx
        = some JsxEmit.Preserve := by
  unfold getParsedConfigOptions detectJsxFactory
  split
  · simp [spreadOptions, forcedCompilerOptions]
  · simp [spreadOptions, forcedCompilerOptions]

/-- The JSON config object: the fields `getParsedConfig` inspects.
`extendsClause` models the JSON `extends` property (renamed because the
original name is reserved in Lean). -/
structure ConfigJson where
  extendsClause : Option String := none
  exclude : Option (List String) := none
  includeList : Option (List String) := none
  compilerOptions : CompilerOptions := {}
deriving DecidableEq

/-- JavaScript truthiness of the `extends` property: absent or the empty
string are falsy. -/
def jsTruthyExtends (e : Option String) : Bool :=
  match e with
  | none => false
  | some s => s != ""

/-- Modelled from the spec: `ignoredBuildDirectories` is declared in
`SnapshotManager`, not part of the source excerpt; the spec says only that it
is a fixed list of build-output directory names. -/
def ignoredBuildDirectories : List String := ["__sapper__", ".svelte-kit"]

/-- `getDefaultExclude()`. -/
def getDefaultExclude : List String :=
  "node_modules" :: ignoredBuildDirectories

/-- `getDefaultJsConfig()`: the synthesized config used when no config file
exists; empty include list so unrelated files do not flood the project. -/
def getDefaultJsConfig : ConfigJson :=
  { compilerOptions :=
      { maxNodeModuleJsDepth := some 2
        allowSyntheticDefaultImports := some true }
    includeList := some [] }

/-- The config-loading step of `getParsedConfig`: the tsconfig path is read
when non-empty, and a missing or unreadable config falls back to
`getDefaultJsConfig`. The file read is external, hence the `readConfig`
parameter. -/
def loadConfigJson (tsconfigPath : String)
    (readConfig : String → Option ConfigJson) : ConfigJson :=
  match (if tsconfigPath != "" then readConfig tsconfigPath else none) with
  | some c => c
  | none => getDefaultJsConfig

/-- The default-exclude step of `getParsedConfig`: only when the config has
no (truthy) `extends` clause, `Object.assign` of the loaded config over an
object holding the default exclude list — so the config's own `exclude`,
when present, wins. -/
def applyDefaultExclude (configJson : ConfigJson) : ConfigJson :=
  if jsTruthyExtends configJson.extendsClause then configJson
  else
    { configJson with
      exclude :=
        match configJson.exclude with
        | some e => some e
        | none => some getDefaultExclude }

/-- C7: the default exclude list is added iff the loaded config has no
`extends` clause; when added it never replaces an exclude list the config
itself specifies; and when no config file exists the synthesized default
config has an empty include list. -/
theorem default_exclude_iff_no_extends (configJson : ConfigJson)
    (tsconfigPath : String) (readConfig : String → Option ConfigJson) :
    (jsTruthyExtends configJson.extendsClause = false →
        (configJson.exclude = none →
            (applyDefaultExclude configJson).exclude = some getDefaultExclude) ∧
        (∀ e, configJson.exclude = some e →
            (applyDefaultExclude configJson).exclude = some e)) ∧
    (jsTruthyExtends configJson.extendsClause = true →
        applyDefaultExclude configJson = configJson) ∧
    ((if tsconfigPath != "" then readConfig tsconfigPath else none) = none →
        loadConfigJson tsconfigPath readConfig = getDefaultJsConfig) ∧
    getDefaultJsConfig.includeList = some [] := by
  refine ⟨?_, ?_, ?_, rfl⟩
  · intro hext
    constructor
    · intro hex
      simp [applyDefaultExclude, hext, hex]
    · intro e hex
      simp [applyDefaultExclude, hext, hex]
  · intro hext
    simp [applyDefaultExclude, hext]
  · intro hread
    rw [loadConfigJson, hread]

/-- A config with its own exclude list and no extends clause. -/
def sampleConfigNoExtends : ConfigJson := { exclude := some ["custom"] }

/-- Witness for C7: with no extends clause, the config's own exclude list
survives the default-exclude step. -/
theorem default_exclude_iff_no_extends_witness :
    (applyDefaultExclude sampleConfigNoExtends).exclude = some ["custom"] :=
  ((default_exclude_iff_no_extends sampleConfigNoExtends "" (fun _ => none)).1
    (by decide)).2 ["custom"] rfl

/-! ### C9: hasServiceForFile -/

/-- `hasServiceForFile(path, workspaceUris)`: derives the project key with
`findTsConfigPath` (external key derivation, modelled per the spec as a pure
parameter) and answers by a lookup on the registry map; the definition takes
no filesystem input. -/
def hasServiceForFile (findTsConfigPath : String → List String → String)
    (services : ServicesMap) (path : String) (workspaceUris : List String) : Bool :=
  servicesHas services (findTsConfigPath path workspaceUris)

/-- Registry membership is key membership. -/
theorem servicesHas_iff_mem_keys (services : ServicesMap) (k : String) :
    servicesHas services k = true ↔ k ∈ services.map Prod.fst := by
  induction services with
  | nil => simp [servicesHas]
  | cons e rest ih =>
      obtain ⟨ek, ev⟩ := e
      rw [servicesHas, List.lookup_cons]
      cases hbe : k == ek with
      | true =>
          have hk : k = ek := by simpa using hbe
          simp [hk]
      | false =>
          have hne : k ≠ ek := by simpa using hbe
          rw [servicesHas] at ih
          simp [hne, ih]

/-- C9: `hasServiceForFile` answers whether a container is registered for the
project owning the path by a pure map lookup on the registry — it holds
exactly when the derived project key is among the registry's keys, and it
consults nothing besides the registry and the derived key (its definition
takes no filesystem input). -/
theorem hasServiceForFile_pure_lookup (findTsConfigPath : String → List String → String)
    (services : ServicesMap) (path : String) (workspaceUris : List String) :
    (hasServiceForFile findTsConfigPath services path workspaceUris = true ↔
        findTsConfigPath path workspaceUris ∈ services.map Prod.fst) ∧
    hasServiceForFile findTsConfigPath services path workspaceUris
      = servicesHas services (findTsConfigPath path workspaceUris) :=
  ⟨servicesHas_iff_mem_keys services (findTsConfigPath path workspaceUris), rfl⟩

end Service
